import Mathlib

/-!
Verification of `blues/reporters.py` (BLUES simulation reporters).

The Python module provides three reporter classes (`BLUESHDF5Reporter`,
`BLUESStateDataReporter`, `NetCDF4Reporter`) sharing a reporting-cadence
decision (`describeNextReport`), a write-on-report protocol (`report`),
a reporter factory (`ReporterConfig.makeReporters`), a mode guard
(`_check_mode`) and a logging-level registration helper
(`addLoggingLevel`).

Python integers are modelled as `Int`.  Python's `%` with a positive
divisor agrees with Lean's `Int` `%` (Euclidean remainder), which is what
every call site here uses (`reportInterval` is positive).  Every function
below is translated directly from the corresponding Python definition.
-/

namespace BluesReporters

/-! ### Cadence model: `describeNextReport` for the three reporter classes

Each class stores `reportInterval`, a (possibly shifted) `frame_indices`
list, and the boolean need-flags returned in the cadence tuple.  The
constructors shift a non-empty `frame_indices` list down by one
(`self.frame_indices = [x - 1 for x in frame_indices]`); an empty list is
kept as is.  `describeNextReport` computes the steps component with two
complementary guards in the source (`if self.frame_indices: ...` then
`if not self.frame_indices: ...`), rendered here as a single
if-then-else on emptiness. -/

structure BLUESHDF5Reporter where
  reportInterval : Int
  frame_indices : List Int
  coordinates : Bool
  velocities : Bool
  needEnergy : Bool

/-- `BLUESHDF5Reporter.__init__`: stores the interval and flags, shifting a
non-empty `frame_indices` list down by one. -/
def mkBLUESHDF5Reporter (reportInterval : Int) (frame_indices : List Int)
    (coordinates velocities needEnergy : Bool) : BLUESHDF5Reporter :=
  { reportInterval := reportInterval
    frame_indices :=
      if frame_indices.isEmpty then frame_indices
      else frame_indices.map (fun x => x - 1)
    coordinates := coordinates
    velocities := velocities
    needEnergy := needEnergy }

/-- `BLUESHDF5Reporter.describeNextReport`: returns
`(steps, coordinates, velocities, False, needEnergy)`. -/
def BLUESHDF5Reporter.describeNextReport (r : BLUESHDF5Reporter)
    (currentStep : Int) : Int × Bool × Bool × Bool × Bool :=
  let steps :=
    if r.frame_indices.isEmpty then
      r.reportInterval - currentStep % r.reportInterval
    else if currentStep ∈ r.frame_indices then 1 else -1
  (steps, r.coordinates, r.velocities, false, r.needEnergy)

structure BLUESStateDataReporter where
  reportInterval : Int
  frame_indices : List Int
  needsPositions : Bool
  needsVelocities : Bool
  needsForces : Bool
  needEnergy : Bool

/-- `BLUESStateDataReporter.__init__`: stores the interval and need-flags,
shifting a non-empty `frame_indices` list down by one. -/
def mkBLUESStateDataReporter (reportInterval : Int) (frame_indices : List Int)
    (needsPositions needsVelocities needsForces needEnergy : Bool) :
    BLUESStateDataReporter :=
  { reportInterval := reportInterval
    frame_indices :=
      if frame_indices.isEmpty then frame_indices
      else frame_indices.map (fun x => x - 1)
    needsPositions := needsPositions
    needsVelocities := needsVelocities
    needsForces := needsForces
    needEnergy := needEnergy }

/-- `BLUESStateDataReporter.describeNextReport`: returns
`(steps, needsPositions, needsVelocities, needsForces, needEnergy)`. -/
def BLUESStateDataReporter.describeNextReport (r : BLUESStateDataReporter)
    (currentStep : Int) : Int × Bool × Bool × Bool × Bool :=
  let steps :=
    if r.frame_indices.isEmpty then
      r.reportInterval - currentStep % r.reportInterval
    else if currentStep ∈ r.frame_indices then 1 else -1
  (steps, r.needsPositions, r.needsVelocities, r.needsForces, r.needEnergy)

structure NetCDF4Reporter where
  reportInterval : Int
  frame_indices : List Int
  crds : Bool
  vels : Bool
  frcs : Bool

/-- `NetCDF4Reporter.__init__`: stores the interval and flags, shifting a
non-empty `frame_indices` list down by one. -/
def mkNetCDF4Reporter (reportInterval : Int) (frame_indices : List Int)
    (crds vels frcs : Bool) : NetCDF4Reporter :=
  { reportInterval := reportInterval
    frame_indices :=
      if frame_indices.isEmpty then frame_indices
      else frame_indices.map (fun x => x - 1)
    crds := crds
    vels := vels
    frcs := frcs }

/-- `NetCDF4Reporter.describeNextReport`: returns
`(steps, crds, vels, frcs, False)`. -/
def NetCDF4Reporter.describeNextReport (r : NetCDF4Reporter)
    (currentStep : Int) : Int × Bool × Bool × Bool × Bool :=
  let steps :=
    if r.frame_indices.isEmpty then
      r.reportInterval - currentStep % r.reportInterval
    else if currentStep ∈ r.frame_indices then 1 else -1
  (steps, r.crds, r.vels, r.frcs, false)

end BluesReporters

namespace BluesReporters

/-- **C1.** For every reporter class constructed with `reportInterval = n ≥ 1`
and an empty `frame_indices` list, `describeNextReport` at current step `k`
returns `n - (k mod n)` as its steps-until-next-report component. -/
theorem C1_periodic_cadence (n k : Int) (co ve en po vl fo : Bool)
    (hn : 1 ≤ n) :
    ((mkBLUESHDF5Reporter n [] co ve en).describeNextReport k).1 = n - k % n ∧
    ((mkBLUESStateDataReporter n [] po vl fo en).describeNextReport k).1
      = n - k % n ∧
    ((mkNetCDF4Reporter n [] co ve fo).describeNextReport k).1 = n - k % n := by
  refine ⟨rfl, rfl, rfl⟩

/-- Witness for C1 at `n = 7`, `k = 10`: the steps component is
`7 - 10 % 7 = 4` for all three classes. -/
theorem C1_periodic_cadence_witness :
    ((mkBLUESHDF5Reporter 7 [] true false false).describeNextReport 10).1
        = 7 - 10 % 7 ∧
    ((mkBLUESStateDataReporter 7 [] true false false false).describeNextReport
        10).1 = 7 - 10 % 7 ∧
    ((mkNetCDF4Reporter 7 [] true false false).describeNextReport 10).1
        = 7 - 10 % 7 :=
  C1_periodic_cadence 7 10 true false false true false false (by decide)

/-- **C2.** For every reporter constructed with a non-empty explicit frame
list, the constructor stores each index decremented by one, and
`describeNextReport` returns 1 as the steps component exactly when the
current step is in the stored list and -1 otherwise; the periodic-interval
rule is ignored whenever the stored list is non-empty (the result does not
depend on `n`). -/
theorem C2_frame_indices_override (fi : List Int) (n k : Int)
    (co ve en po vl fo : Bool) (hne : fi ≠ []) :
    (mkBLUESHDF5Reporter n fi co ve en).frame_indices
        = fi.map (fun x => x - 1) ∧
    (mkBLUESStateDataReporter n fi po vl fo en).frame_indices
        = fi.map (fun x => x - 1) ∧
    (mkNetCDF4Reporter n fi co ve fo).frame_indices
        = fi.map (fun x => x - 1) ∧
    ((mkBLUESHDF5Reporter n fi co ve en).describeNextReport k).1
        = (if k ∈ fi.map (fun x => x - 1) then 1 else -1) ∧
    ((mkBLUESStateDataReporter n fi po vl fo en).describeNextReport k).1
        = (if k ∈ fi.map (fun x => x - 1) then 1 else -1) ∧
    ((mkNetCDF4Reporter n fi co ve fo).describeNextReport k).1
        = (if k ∈ fi.map (fun x => x - 1) then 1 else -1) := by
  have hfi : fi.isEmpty = false := by
    cases fi with
    | nil => exact absurd rfl hne
    | cons a l => rfl
  have hmap : (fi.map (fun x => x - 1)).isEmpty = false := by
    cases fi with
    | nil => exact absurd rfl hne
    | cons a l => rfl
  refine ⟨?_, ?_, ?_, ?_, ?_, ?_⟩ <;>
    simp [mkBLUESHDF5Reporter, mkBLUESStateDataReporter, mkNetCDF4Reporter,
      BLUESHDF5Reporter.describeNextReport,
      BLUESStateDataReporter.describeNextReport,
      NetCDF4Reporter.describeNextReport, hfi, hmap]

/-- Witness for C2 with `frame_indices = [1, 100]`, `n = 5`, `k = 0`: the
stored list is `[0, 99]` and the steps component is 1 at step 0 for all
three classes. -/
theorem C2_frame_indices_override_witness :
    (mkBLUESHDF5Reporter 5 [1, 100] true false false).frame_indices
        = [1, 100].map (fun x => x - 1) ∧
    (mkBLUESStateDataReporter 5 [1, 100] true false false
        false).frame_indices = [1, 100].map (fun x => x - 1) ∧
    (mkNetCDF4Reporter 5 [1, 100] true false false).frame_indices
        = [1, 100].map (fun x => x - 1) ∧
    ((mkBLUESHDF5Reporter 5 [1, 100] true false false).describeNextReport
        0).1 = (if (0 : Int) ∈ [1, 100].map (fun x => x - 1) then 1 else -1) ∧
    ((mkBLUESStateDataReporter 5 [1, 100] true false false
        false).describeNextReport 0).1
        = (if (0 : Int) ∈ [1, 100].map (fun x => x - 1) then 1 else -1) ∧
    ((mkNetCDF4Reporter 5 [1, 100] true false false).describeNextReport 0).1
        = (if (0 : Int) ∈ [1, 100].map (fun x => x - 1) then 1 else -1) :=
  C2_frame_indices_override [1, 100] 5 0 true false false true false false
    (by decide)

/-- **C10.** For every reporter constructed with a `frame_indices` list
containing the index 0 (and otherwise only non-negative indices), the
shifted stored index is -1, and for every non-negative current step a
steps component of 1 can only come from a positive user-supplied index:
the user-supplied frame index 0 can never trigger a report. -/
theorem C10_zero_frame_index_lost (fi : List Int) (n k : Int)
    (co ve en fo : Bool) (h0 : (0 : Int) ∈ fi) (hpos : ∀ x ∈ fi, 0 ≤ x)
    (hk : 0 ≤ k) :
    (-1 : Int) ∈ (mkBLUESHDF5Reporter n fi co ve en).frame_indices ∧
    (-1 : Int) ∈ (mkNetCDF4Reporter n fi co ve fo).frame_indices ∧
    (((mkBLUESHDF5Reporter n fi co ve en).describeNextReport k).1 = 1 →
      ∃ y ∈ fi, 0 < y ∧ k = y - 1) ∧
    (((mkNetCDF4Reporter n fi co ve fo).describeNextReport k).1 = 1 →
      ∃ y ∈ fi, 0 < y ∧ k = y - 1) := by
  have hne : fi ≠ [] := by
    intro h
    rw [h] at h0
    exact absurd h0 (List.not_mem_nil 0)
  have hfi : fi.isEmpty = false := by
    cases fi with
    | nil => exact absurd rfl hne
    | cons a l => rfl
  have hmem : (-1 : Int) ∈ fi.map (fun x => x - 1) := by
    refine List.mem_map.mpr ⟨0, h0, by norm_num⟩
  have hH : ((mkBLUESHDF5Reporter n fi co ve en).describeNextReport k).1
      = (if k ∈ fi.map (fun x => x - 1) then 1 else -1) := by
    simp [mkBLUESHDF5Reporter, BLUESHDF5Reporter.describeNextReport, hfi, hne]
  have hN : ((mkNetCDF4Reporter n fi co ve fo).describeNextReport k).1
      = (if k ∈ fi.map (fun x => x - 1) then 1 else -1) := by
    simp [mkNetCDF4Reporter, NetCDF4Reporter.describeNextReport, hfi, hne]
  have hkey : (if k ∈ fi.map (fun x => x - 1) then (1 : Int) else -1) = 1 →
      ∃ y ∈ fi, 0 < y ∧ k = y - 1 := by
    intro hif
    by_cases hmemk : k ∈ fi.map (fun x => x - 1)
    · obtain ⟨y, hy, hyk⟩ := List.mem_map.mp hmemk
      refine ⟨y, hy, ?_, hyk.symm⟩
      have h0y : 0 ≤ y := hpos y hy
      have h1y : 0 ≤ y - 1 := hyk ▸ hk
      omega
    · rw [if_neg hmemk] at hif
      exact absurd hif (by norm_num)
  refine ⟨?_, ?_, ?_, ?_⟩
  · simpa [mkBLUESHDF5Reporter, hfi] using hmem
  · simpa [mkNetCDF4Reporter, hfi] using hmem
  · intro hsteps
    exact hkey (hH ▸ hsteps)
  · intro hsteps
    exact hkey (hN ▸ hsteps)

/-- Witness for C10 with `frame_indices = [0, 5]` at step `k = 4`: -1 is in
the stored list, and the only way to get a steps component of 1 is a
positive index (here 5). -/
theorem C10_zero_frame_index_lost_witness :
    (-1 : Int) ∈ (mkBLUESHDF5Reporter 2 [0, 5] true false
        false).frame_indices ∧
    (-1 : Int) ∈ (mkNetCDF4Reporter 2 [0, 5] true false
        false).frame_indices ∧
    (((mkBLUESHDF5Reporter 2 [0, 5] true false false).describeNextReport
        4).1 = 1 → ∃ y ∈ ([0, 5] : List Int), 0 < y ∧ (4 : Int) = y - 1) ∧
    (((mkNetCDF4Reporter 2 [0, 5] true false false).describeNextReport
        4).1 = 1 → ∃ y ∈ ([0, 5] : List Int), 0 < y ∧ (4 : Int) = y - 1) :=
  C10_zero_frame_index_lost [0, 5] 2 4 true false false false (by decide)
    (by decide) (by decide)

end BluesReporters

namespace BluesReporters

/-! ### Reporter factory: `ReporterConfig.makeReporters`

The configuration is a mapping from reporter-kind keys to option
sub-mappings; it is modelled as an association list (first binding wins,
as a Python `dict` has unique keys).  Only the option fields the factory
itself reads (`outfname`, `reportInterval`) are modelled; the remaining
options are forwarded opaquely to the constructors and do not affect
which reporters are produced or their filenames.  The produced reporter
is modelled by its kind and output filename (`stream` writes to a logger
and has no filename).  The factory's side effect on
`self.trajectory_interval` is returned as the second component. -/

structure SubCfg where
  outfname : Option String
  reportInterval : Option Int

inductive Reporter
  | state (fname : String)
  | traj_netcdf (fname : String)
  | restart (fname : String)
  | progress (fname : String)
  | stream
deriving DecidableEq

/-- The configuration key that selects each reporter kind. -/
def Reporter.key : Reporter → String
  | .state _ => "state"
  | .traj_netcdf _ => "traj_netcdf"
  | .restart _ => "restart"
  | .progress _ => "progress"
  | .stream => "stream"

/-- Lookup of a key in the configuration mapping (`'k' in cfg` /
`cfg['k']`). -/
def lookupKey (cfg : List (String × SubCfg)) (k : String) : Option SubCfg :=
  (cfg.find? (fun p => p.1 == k)).map Prod.snd

/-- The five keys recognized by `ReporterConfig.makeReporters`. -/
def recognizedKeys : List String :=
  ["state", "traj_netcdf", "restart", "progress", "stream"]

/-- `ReporterConfig.makeReporters`: checks the five recognized keys in
order, appending one reporter per present key; each reporter's filename
defaults to the top-level outfname, overridden by the sub-mapping's
`outfname` option, with a kind-specific extension appended.  The
`traj_netcdf` branch also records its `reportInterval` option in
`self.trajectory_interval` (initialized to 0 in `__init__`), which is
returned as the second component. -/
def makeReporters (outfname0 : String) (cfg : List (String × SubCfg)) :
    List Reporter × Int :=
  let rs : List Reporter := []
  let ti : Int := 0
  let rs :=
    match lookupKey cfg "state" with
    | some sub => rs ++ [Reporter.state ((sub.outfname.getD outfname0) ++ ".ene")]
    | none => rs
  let p :=
    match lookupKey cfg "traj_netcdf" with
    | some sub =>
        (rs ++ [Reporter.traj_netcdf ((sub.outfname.getD outfname0) ++ ".nc")],
          sub.reportInterval.getD ti)
    | none => (rs, ti)
  let rs := p.1
  let ti := p.2
  let rs :=
    match lookupKey cfg "restart" with
    | some sub => rs ++ [Reporter.restart ((sub.outfname.getD outfname0) ++ ".rst7")]
    | none => rs
  let rs :=
    match lookupKey cfg "progress" with
    | some sub => rs ++ [Reporter.progress ((sub.outfname.getD outfname0) ++ ".prog")]
    | none => rs
  let rs :=
    match lookupKey cfg "stream" with
    | some _ => rs ++ [Reporter.stream]
    | none => rs
  (rs, ti)

theorem lookupKey_cons_ne (cfg : List (String × SubCfg)) (extra k : String)
    (sub : SubCfg) (h : extra ≠ k) :
    lookupKey ((extra, sub) :: cfg) k = lookupKey cfg k := by
  have hb : (extra == k) = false := beq_eq_false_iff_ne.mpr h
  simp [lookupKey, List.find?, hb]

/-- Decomposition of the factory's reporter list into one segment per
recognized key, in the order the source checks them. -/
theorem makeReporters_fst_eq (outfname0 : String)
    (cfg : List (String × SubCfg)) :
    (makeReporters outfname0 cfg).1 =
      (match lookupKey cfg "state" with
        | some sub => [Reporter.state ((sub.outfname.getD outfname0) ++ ".ene")]
        | none => []) ++
      (match lookupKey cfg "traj_netcdf" with
        | some sub =>
            [Reporter.traj_netcdf ((sub.outfname.getD outfname0) ++ ".nc")]
        | none => []) ++
      (match lookupKey cfg "restart" with
        | some sub =>
            [Reporter.restart ((sub.outfname.getD outfname0) ++ ".rst7")]
        | none => []) ++
      (match lookupKey cfg "progress" with
        | some sub =>
            [Reporter.progress ((sub.outfname.getD outfname0) ++ ".prog")]
        | none => []) ++
      (match lookupKey cfg "stream" with
        | some _ => [Reporter.stream]
        | none => []) := by
  simp only [makeReporters]
  cases lookupKey cfg "state" <;>
    cases lookupKey cfg "traj_netcdf" <;>
      cases lookupKey cfg "restart" <;>
        cases lookupKey cfg "progress" <;>
          cases lookupKey cfg "stream" <;> simp

end BluesReporters

namespace BluesReporters

/-- **C4.** For every configuration mapping whose only key is `state`,
`makeReporters` returns exactly one reporter, whose filename is the
configured top-level outfname with `.ene` appended, the sub-mapping's
`outfname` option (when present) replacing the top-level one. -/
theorem C4_state_only_factory (outfname0 : String)
    (cfg : List (String × SubCfg)) (h : cfg.map Prod.fst = ["state"]) :
    (makeReporters outfname0 cfg).1.length = 1 ∧
    ∃ sub, cfg = [("state", sub)] ∧
      (makeReporters outfname0 cfg).1
        = [Reporter.state ((sub.outfname.getD outfname0) ++ ".ene")] := by
  obtain ⟨p, l, rfl⟩ : ∃ p l, cfg = p :: l := by
    cases cfg with
    | nil => simp at h
    | cons p l => exact ⟨p, l, rfl⟩
  obtain ⟨hp, hl⟩ : p.1 = "state" ∧ l = [] := by
    simp only [List.map_cons] at h
    cases l with
    | nil => simpa using h
    | cons q m => simp at h
  subst hl
  obtain ⟨pk, sub⟩ := p
  subst hp
  refine ⟨?_, sub, rfl, ?_⟩ <;> simp [makeReporters, lookupKey, List.find?]

/-- Witness for C4 with `cfg = [("state", sub)]` where `sub` overrides the
outfname to `"custom"`: one reporter, writing to `custom.ene`. -/
theorem C4_state_only_factory_witness :
    (makeReporters "blues"
        [("state", ⟨some "custom", none⟩)]).1.length = 1 ∧
    ∃ sub, [(("state" : String), (⟨some "custom", none⟩ : SubCfg))]
        = [("state", sub)] ∧
      (makeReporters "blues" [("state", ⟨some "custom", none⟩)]).1
        = [Reporter.state ((sub.outfname.getD "blues") ++ ".ene")] :=
  C4_state_only_factory "blues" [("state", ⟨some "custom", none⟩)] rfl

/-- **C6.** `makeReporters` builds reporters only for the keys `state`,
`traj_netcdf`, `restart`, `progress` and `stream`: a mapping with none of
those keys yields the empty list, prepending a binding for any other key
leaves the result unchanged (unknown keys are silently ignored, with no
error), and every produced reporter corresponds to a recognized key
present in the mapping. -/
theorem C6_factory_recognized_keys (outfname0 : String)
    (cfg : List (String × SubCfg)) :
    ((∀ k ∈ recognizedKeys, lookupKey cfg k = none) →
      (makeReporters outfname0 cfg).1 = []) ∧
    (∀ extra sub, extra ∉ recognizedKeys →
      (makeReporters outfname0 ((extra, sub) :: cfg)).1
        = (makeReporters outfname0 cfg).1) ∧
    (∀ r ∈ (makeReporters outfname0 cfg).1,
      r.key ∈ recognizedKeys ∧ lookupKey cfg r.key ≠ none) := by
  refine ⟨?_, ?_, ?_⟩
  · intro hnone
    have h1 := hnone "state" (by simp [recognizedKeys])
    have h2 := hnone "traj_netcdf" (by simp [recognizedKeys])
    have h3 := hnone "restart" (by simp [recognizedKeys])
    have h4 := hnone "progress" (by simp [recognizedKeys])
    have h5 := hnone "stream" (by simp [recognizedKeys])
    simp [makeReporters, h1, h2, h3, h4, h5]
  · intro extra sub hextra
    have h1 : extra ≠ "state" := by
      intro h
      exact hextra (by simp [recognizedKeys, h])
    have h2 : extra ≠ "traj_netcdf" := by
      intro h
      exact hextra (by simp [recognizedKeys, h])
    have h3 : extra ≠ "restart" := by
      intro h
      exact hextra (by simp [recognizedKeys, h])
    have h4 : extra ≠ "progress" := by
      intro h
      exact hextra (by simp [recognizedKeys, h])
    have h5 : extra ≠ "stream" := by
      intro h
      exact hextra (by simp [recognizedKeys, h])
    simp [makeReporters, lookupKey_cons_ne cfg extra _ sub, h1, h2, h3, h4, h5]
  · intro r hr
    rw [makeReporters_fst_eq] at hr
    simp only [List.mem_append] at hr
    rcases hr with (((h | h) | h) | h) | h
    · cases hlk : lookupKey cfg "state" with
      | none => rw [hlk] at h; exact absurd h (List.not_mem_nil r)
      | some sub =>
          rw [hlk] at h
          rw [List.mem_singleton.mp h]
          simp [Reporter.key, recognizedKeys, hlk]
    · cases hlk : lookupKey cfg "traj_netcdf" with
      | none => rw [hlk] at h; exact absurd h (List.not_mem_nil r)
      | some sub =>
          rw [hlk] at h
          rw [List.mem_singleton.mp h]
          simp [Reporter.key, recognizedKeys, hlk]
    · cases hlk : lookupKey cfg "restart" with
      | none => rw [hlk] at h; exact absurd h (List.not_mem_nil r)
      | some sub =>
          rw [hlk] at h
          rw [List.mem_singleton.mp h]
          simp [Reporter.key, recognizedKeys, hlk]
    · cases hlk : lookupKey cfg "progress" with
      | none => rw [hlk] at h; exact absurd h (List.not_mem_nil r)
      | some sub =>
          rw [hlk] at h
          rw [List.mem_singleton.mp h]
          simp [Reporter.key, recognizedKeys, hlk]
    · cases hlk : lookupKey cfg "stream" with
      | none => rw [hlk] at h; exact absurd h (List.not_mem_nil r)
      | some sub =>
          rw [hlk] at h
          rw [List.mem_singleton.mp h]
          simp [Reporter.key, recognizedKeys, hlk]

/-- Witness for C6 at a mapping with one unrecognized key `"foo"`: the
result is empty, prepending `"foo"` changes nothing, and the membership
clause holds vacuously. -/
theorem C6_factory_recognized_keys_witness :
    ((∀ k ∈ recognizedKeys,
        lookupKey [(("foo" : String), (⟨none, none⟩ : SubCfg))] k = none) →
      (makeReporters "blues" [("foo", ⟨none, none⟩)]).1 = []) ∧
    (∀ extra sub, extra ∉ recognizedKeys →
      (makeReporters "blues" ((extra, sub) :: [("foo", ⟨none, none⟩)])).1
        = (makeReporters "blues" [("foo", ⟨none, none⟩)]).1) ∧
    (∀ r ∈ (makeReporters "blues" [("foo", ⟨none, none⟩)]).1,
      r.key ∈ recognizedKeys ∧
        lookupKey [(("foo" : String), (⟨none, none⟩ : SubCfg))] r.key
          ≠ none) :=
  C6_factory_recognized_keys "blues" [("foo", ⟨none, none⟩)]

/-! ### Mode guard: `_check_mode` -/

/-- `_check_mode(m, modes)`: raises `ValueError` when `m` is not one of
`modes`, otherwise returns `None`.  The raise is modelled as
`Except.error` carrying the message. -/
def _check_mode (m : String) (modes : List String) : Except String Unit :=
  if m ∉ modes then
    Except.error
      ("This operation is only available when a file is open in mode="
        ++ m ++ ".")
  else Except.ok ()

/-- **C7.** `_check_mode m modes` raises `ValueError` exactly when `m` is
not a member of `modes`, and returns normally (with no other effect — it
is a pure check) exactly when `m` is a member of `modes`. -/
theorem C7_check_mode_guard (m : String) (modes : List String) :
    ((∃ e, _check_mode m modes = Except.error e) ↔ m ∉ modes) ∧
    (_check_mode m modes = Except.ok () ↔ m ∈ modes) := by
  by_cases h : m ∈ modes
  · constructor
    · constructor
      · rintro ⟨e, he⟩
        rw [_check_mode, if_neg (by simpa using h)] at he
        exact absurd he (by simp)
      · intro hm
        exact absurd h hm
    · rw [_check_mode, if_neg (by simpa using h)]
      simp [h]
  · constructor
    · constructor
      · intro _
        exact h
      · intro _
        exact ⟨_, by rw [_check_mode, if_pos h]⟩
    · rw [_check_mode, if_pos h]
      simp [h]

/-- Witness for C7 at `m = "r"`, `modes = ["w"]`: the guard raises exactly
because `"r"` is not an allowed mode. -/
theorem C7_check_mode_guard_witness :
    ((∃ e, _check_mode "r" ["w"] = Except.error e) ↔ "r" ∉ (["w"] : List String)) ∧
    (_check_mode "r" ["w"] = Except.ok () ↔ "r" ∈ (["w"] : List String)) :=
  C7_check_mode_guard "r" ["w"]

end BluesReporters

namespace BluesReporters

/-! ### `BLUESStateDataReporter._constructHeaders` / `_constructReportValues`

The fifteen boolean option flags of the reporter, in the order the two
methods test them.  The values appended by `_constructReportValues` are
numbers and formatted strings; since the report line renders every value
with `str(v)`, each appended value is modelled as the string an abstract
report environment supplies for its field (the floating-point arithmetic
producing it is outside the model).  The internal branches of the source
that pick between a computed value and a `"--"` placeholder (speed when no
wall-clock time has elapsed, remaining time when no steps have elapsed)
are kept, driven by environment booleans. -/

structure SDFlags where
  currentIter : Bool
  progress : Bool
  step : Bool
  time : Bool
  alchemicalLambda : Bool
  protocolWork : Bool
  potentialEnergy : Bool
  kineticEnergy : Bool
  totalEnergy : Bool
  temperature : Bool
  volume : Bool
  density : Bool
  speed : Bool
  elapsedTime : Bool
  remainingTime : Bool

structure ReportEnv where
  currentIterVal : String
  progressVal : String
  stepVal : String
  timeVal : String
  alchemicalLambdaVal : String
  protocolWorkVal : String
  potentialEnergyVal : String
  kineticEnergyVal : String
  totalEnergyVal : String
  temperatureVal : String
  volumeVal : String
  densityVal : String
  elapsedDaysPos : Bool
  speedVal : String
  elapsedTimeVal : String
  elapsedStepsZero : Bool
  remainingTimeVal : String

/-- `BLUESStateDataReporter._constructHeaders`: one header per enabled
flag, appended in the source's fixed order. -/
def _constructHeaders (f : SDFlags) : List String :=
  (if f.currentIter then ["Iter"] else []) ++
  (if f.progress then ["Progress (%)"] else []) ++
  (if f.step then ["Step"] else []) ++
  (if f.time then ["Time (ps)"] else []) ++
  (if f.alchemicalLambda then ["alchemicalLambda"] else []) ++
  (if f.protocolWork then ["protocolWork"] else []) ++
  (if f.potentialEnergy then ["Potential Energy (kJ/mole)"] else []) ++
  (if f.kineticEnergy then ["Kinetic Energy (kJ/mole)"] else []) ++
  (if f.totalEnergy then ["Total Energy (kJ/mole)"] else []) ++
  (if f.temperature then ["Temperature (K)"] else []) ++
  (if f.volume then ["Box Volume (nm^3)"] else []) ++
  (if f.density then ["Density (g/mL)"] else []) ++
  (if f.speed then ["Speed (ns/day)"] else []) ++
  (if f.elapsedTime then ["Elapsed Time (s)"] else []) ++
  (if f.remainingTime then ["Time Remaining"] else [])

/-- `BLUESStateDataReporter._constructReportValues`: one value per enabled
flag, appended in the source's fixed order (which matches the header
order). -/
def _constructReportValues (env : ReportEnv) (f : SDFlags) : List String :=
  (if f.currentIter then [env.currentIterVal] else []) ++
  (if f.progress then [env.progressVal] else []) ++
  (if f.step then [env.stepVal] else []) ++
  (if f.time then [env.timeVal] else []) ++
  (if f.alchemicalLambda then [env.alchemicalLambdaVal] else []) ++
  (if f.protocolWork then [env.protocolWorkVal] else []) ++
  (if f.potentialEnergy then [env.potentialEnergyVal] else []) ++
  (if f.kineticEnergy then [env.kineticEnergyVal] else []) ++
  (if f.totalEnergy then [env.totalEnergyVal] else []) ++
  (if f.temperature then [env.temperatureVal] else []) ++
  (if f.volume then [env.volumeVal] else []) ++
  (if f.density then [env.densityVal] else []) ++
  (if f.speed then [if env.elapsedDaysPos then env.speedVal else "--"]
   else []) ++
  (if f.elapsedTime then [env.elapsedTimeVal] else []) ++
  (if f.remainingTime then
    [if env.elapsedStepsZero then "--" else env.remainingTimeVal]
   else [])

/-- The fifteen reportable fields of `BLUESStateDataReporter`. -/
inductive SDField
  | iter
  | progress
  | step
  | time
  | alchemicalLambda
  | protocolWork
  | potentialEnergy
  | kineticEnergy
  | totalEnergy
  | temperature
  | volume
  | density
  | speed
  | elapsedTime
  | remainingTime
deriving DecidableEq

/-- The canonical field order shared by headers and report values. -/
def canonicalFieldOrder : List SDField :=
  [SDField.iter, SDField.progress, SDField.step, SDField.time,
   SDField.alchemicalLambda, SDField.protocolWork, SDField.potentialEnergy,
   SDField.kineticEnergy, SDField.totalEnergy, SDField.temperature,
   SDField.volume, SDField.density, SDField.speed, SDField.elapsedTime,
   SDField.remainingTime]

/-- Which option flag enables each field. -/
def SDField.enabled (f : SDFlags) : SDField → Bool
  | .iter => f.currentIter
  | .progress => f.progress
  | .step => f.step
  | .time => f.time
  | .alchemicalLambda => f.alchemicalLambda
  | .protocolWork => f.protocolWork
  | .potentialEnergy => f.potentialEnergy
  | .kineticEnergy => f.kineticEnergy
  | .totalEnergy => f.totalEnergy
  | .temperature => f.temperature
  | .volume => f.volume
  | .density => f.density
  | .speed => f.speed
  | .elapsedTime => f.elapsedTime
  | .remainingTime => f.remainingTime

/-- The header title of each field. -/
def SDField.header : SDField → String
  | .iter => "Iter"
  | .progress => "Progress (%)"
  | .step => "Step"
  | .time => "Time (ps)"
  | .alchemicalLambda => "alchemicalLambda"
  | .protocolWork => "protocolWork"
  | .potentialEnergy => "Potential Energy (kJ/mole)"
  | .kineticEnergy => "Kinetic Energy (kJ/mole)"
  | .totalEnergy => "Total Energy (kJ/mole)"
  | .temperature => "Temperature (K)"
  | .volume => "Box Volume (nm^3)"
  | .density => "Density (g/mL)"
  | .speed => "Speed (ns/day)"
  | .elapsedTime => "Elapsed Time (s)"
  | .remainingTime => "Time Remaining"

/-- The report value of each field under an abstract environment. -/
def SDField.value (env : ReportEnv) : SDField → String
  | .iter => env.currentIterVal
  | .progress => env.progressVal
  | .step => env.stepVal
  | .time => env.timeVal
  | .alchemicalLambda => env.alchemicalLambdaVal
  | .protocolWork => env.protocolWorkVal
  | .potentialEnergy => env.potentialEnergyVal
  | .kineticEnergy => env.kineticEnergyVal
  | .totalEnergy => env.totalEnergyVal
  | .temperature => env.temperatureVal
  | .volume => env.volumeVal
  | .density => env.densityVal
  | .speed => if env.elapsedDaysPos then env.speedVal else "--"
  | .elapsedTime => env.elapsedTimeVal
  | .remainingTime =>
      if env.elapsedStepsZero then "--" else env.remainingTimeVal

theorem filter_map_eq_foldr {α β : Type} (p : α → Bool) (g : α → β)
    (l : List α) :
    (l.filter p).map g
      = l.foldr (fun a acc => (if p a then [g a] else []) ++ acc) [] := by
  induction l with
  | nil => rfl
  | cons a as ih => by_cases h : p a <;> simp [List.filter_cons, h, ih]

/-- **C5.** For every combination of the option flags, the header list of
`_constructHeaders` is the canonical field order filtered to the enabled
flags (one entry per enabled flag, in the fixed canonical order), the
value list of `_constructReportValues` enumerates the same fields' values
in the same order, and therefore the two lists always have equal length
and positionally matching fields (their zip pairs each header with the
value of the same field). -/
theorem C5_headers_values_aligned (f : SDFlags) (env : ReportEnv) :
    _constructHeaders f
      = (canonicalFieldOrder.filter (SDField.enabled f)).map SDField.header ∧
    _constructReportValues env f
      = (canonicalFieldOrder.filter (SDField.enabled f)).map
          (SDField.value env) ∧
    (_constructHeaders f).length = (_constructReportValues env f).length ∧
    (_constructHeaders f).zip (_constructReportValues env f)
      = (canonicalFieldOrder.filter (SDField.enabled f)).map
          (fun fld => (fld.header, fld.value env)) := by
  have hH : _constructHeaders f
      = (canonicalFieldOrder.filter (SDField.enabled f)).map
          SDField.header := by
    rw [filter_map_eq_foldr]
    simp only [canonicalFieldOrder, List.foldr, SDField.enabled,
      SDField.header, _constructHeaders, List.append_assoc,
      List.append_nil]
  have hV : _constructReportValues env f
      = (canonicalFieldOrder.filter (SDField.enabled f)).map
          (SDField.value env) := by
    rw [filter_map_eq_foldr]
    simp only [canonicalFieldOrder, List.foldr, SDField.enabled,
      SDField.value, _constructReportValues, List.append_assoc,
      List.append_nil]
  refine ⟨hH, hV, ?_, ?_⟩
  · rw [hH, hV]
    simp
  · rw [hH, hV]
    exact List.zip_map' SDField.header (SDField.value env) _

end BluesReporters

namespace BluesReporters

/-! ### Write-on-report protocol: event traces of `report`

Each `report` method is modelled as a function from the reporter's
mutable guard state to the sequence of actions it performs on the
underlying store, plus the new guard state.  The events are: the one-time
resource setup (`initialize` — `self._initialize` for the HDF5 reporter,
the `NetCDF4Traj.open_new` allocation for the NetCDF reporter,
`writeHeader` for the header row of the state-data reporter), `append`
(one `write`/`add_*`/log-line call handing a record to the store) and
`flush` (an explicit flush of the store).  Store reads of the simulation
state and unit conversions produce no store events. -/

inductive Ev
  | setup
  | writeHeader
  | append
  | flush
deriving DecidableEq

/-- `BLUESHDF5Reporter.report`: initializes on the first call (guarded by
`self._is_intialized`), writes one frame via `self._traj_file.write`, then
flushes when the trajectory file object has a `flush` attribute
(`hasFlush`). -/
def hdf5Report (hasFlush : Bool) (is_intialized : Bool) :
    List Ev × Bool :=
  let initPart : List Ev × Bool :=
    if is_intialized then ([], is_intialized) else ([Ev.setup], true)
  (initPart.1 ++ [Ev.append] ++ (if hasFlush then [Ev.flush] else []),
    initPart.2)

/-- `BLUESStateDataReporter.report`: on the first call (guarded by
`self._hasInitialized`) writes the header row and attempts a flush (the
`AttributeError` of an out object without `flush` is swallowed:
`outHasFlush` false produces no event and no error); on every call writes
one record line and attempts the same flush. -/
def sdReport (outHasFlush : Bool) (hasInitialized : Bool) :
    List Ev × Bool :=
  let initPart : List Ev × Bool :=
    if hasInitialized then ([], hasInitialized)
    else ([Ev.writeHeader] ++ (if outHasFlush then [Ev.flush] else []), true)
  (initPart.1 ++ [Ev.append] ++ (if outHasFlush then [Ev.flush] else []),
    initPart.2)

/-- The `atom` local of the first-frame branch of `NetCDF4Reporter.report`:
`len(crds)` when coordinates are written, elif `len(vels)`, elif
`len(frcs)` (each equal to the atom count); with all three flags false no
branch assigns it. -/
def ncAtom (crds vels frcs : Bool) (natoms : Nat) : Option Nat :=
  if crds then some natoms
  else if vels then some natoms
  else if frcs then some natoms
  else none

/-- `NetCDF4Reporter.report`: when `self._out is None`, allocates the
NetCDF store sized by the atom count via `NetCDF4Traj.open_new` — but with
`crds`, `vels` and `frcs` all false the `atom` local is never assigned, so
that call raises `UnboundLocalError` before any store action and
`self._out` stays `None` (modelled as `Except.error`).  Otherwise it
appends cell lengths/angles (when `uses_pbc`), coordinates, velocities,
forces, protocol work and alchemical lambda as configured, and always
appends the time.  No flush is ever issued. -/
def ncReport (crds vels frcs protocolWork alchemicalLambda uses_pbc : Bool)
    (natoms : Nat) (out : Option Nat) :
    Except String (List Ev × Option Nat) :=
  let appends : List Ev :=
    (if uses_pbc then [Ev.append] else []) ++
    (if crds then [Ev.append] else []) ++
    (if vels then [Ev.append] else []) ++
    (if frcs then [Ev.append] else []) ++
    (if protocolWork then [Ev.append] else []) ++
    (if alchemicalLambda then [Ev.append] else []) ++
    [Ev.append]
  match out with
  | none =>
      match ncAtom crds vels frcs natoms with
      | some atom => Except.ok (Ev.setup :: appends, some atom)
      | none =>
          Except.error
            "UnboundLocalError: local variable atom referenced before assignment"
  | some a => Except.ok (appends, some a)

/-- Trace of `n` successive `report` calls on one `BLUESHDF5Reporter`. -/
def hdf5Run (hasFlush : Bool) : Nat → Bool → List Ev
  | 0, _ => []
  | n + 1, st => (hdf5Report hasFlush st).1
      ++ hdf5Run hasFlush n (hdf5Report hasFlush st).2

/-- Trace of `n` successive `report` calls on one
`BLUESStateDataReporter`. -/
def sdRun (outHasFlush : Bool) : Nat → Bool → List Ev
  | 0, _ => []
  | n + 1, st => (sdReport outHasFlush st).1
      ++ sdRun outHasFlush n (sdReport outHasFlush st).2

/-- Trace of `n` successive `report` calls on one `NetCDF4Reporter`; a
raising call aborts the run, emitting nothing from that call onward. -/
def ncRun (crds vels frcs protocolWork alchemicalLambda uses_pbc : Bool)
    (natoms : Nat) : Nat → Option Nat → List Ev
  | 0, _ => []
  | n + 1, st =>
      match ncReport crds vels frcs protocolWork alchemicalLambda uses_pbc
          natoms st with
      | Except.ok tr =>
          tr.1 ++ ncRun crds vels frcs protocolWork alchemicalLambda
            uses_pbc natoms n tr.2
      | Except.error _ => []

theorem flush_not_mem_ite_append (b : Bool) :
    Ev.flush ∉ (if b then [Ev.append] else []) := by
  cases b <;> simp

theorem flush_not_mem_ncAppends
    (crds vels frcs protocolWork alchemicalLambda uses_pbc : Bool) :
    Ev.flush ∉
      ((if uses_pbc then [Ev.append] else []) ++
       (if crds then [Ev.append] else []) ++
       (if vels then [Ev.append] else []) ++
       (if frcs then [Ev.append] else []) ++
       (if protocolWork then [Ev.append] else []) ++
       (if alchemicalLambda then [Ev.append] else []) ++
       [Ev.append]) := by
  intro hmem
  simp only [List.append_assoc, List.mem_append, List.mem_singleton,
    List.mem_cons, List.not_mem_nil] at hmem
  rcases hmem with h | h | h | h | h | h | h <;>
    first
      | exact flush_not_mem_ite_append _ h
      | simp_all

/-- No successful call of `NetCDF4Reporter.report` ever emits a flush (and
a raising call emits nothing at all). -/
theorem ncReport_no_flush
    (crds vels frcs protocolWork alchemicalLambda uses_pbc : Bool)
    (natoms : Nat) (out : Option Nat) (tr : List Ev × Option Nat)
    (h : ncReport crds vels frcs protocolWork alchemicalLambda uses_pbc
      natoms out = Except.ok tr) :
    Ev.flush ∉ tr.1 := by
  cases out with
  | some a =>
      simp only [ncReport, Except.ok.injEq] at h
      subst h
      exact flush_not_mem_ncAppends crds vels frcs protocolWork
        alchemicalLambda uses_pbc
  | none =>
      simp only [ncReport] at h
      cases hat : ncAtom crds vels frcs natoms with
      | none =>
          rw [hat] at h
          exact absurd h (by simp)
      | some atom =>
          rw [hat] at h
          simp only [Except.ok.injEq] at h
          subst h
          intro hmem
          rcases List.mem_cons.mp hmem with h1 | h1
          · exact absurd h1 (by simp)
          · exact flush_not_mem_ncAppends crds vels frcs protocolWork
              alchemicalLambda uses_pbc h1

end BluesReporters

namespace BluesReporters

/-- Counterexample to **C3** as stated: a `NetCDF4Reporter` configured with
coordinates only (fresh, on its first `report` call) appends records to
the store but its trace contains no flush at all, so the store is not
flushed immediately after the append. -/
theorem C3_netcdf_never_flushes_counterexample :
    ncReport true false false false false false 5 none
      = Except.ok ([Ev.setup, Ev.append, Ev.append], some 5) ∧
    Ev.append ∈ [Ev.setup, Ev.append, Ev.append] ∧
    Ev.flush ∉ [Ev.setup, Ev.append, Ev.append] := by
  refine ⟨rfl, by decide, by decide⟩

/-- **C3 (amended).** `BLUESHDF5Reporter.report` (when the trajectory file
object exposes `flush`, as guarded by `hasattr`) and
`BLUESStateDataReporter.report` (when the out object exposes `flush`, the
`AttributeError` otherwise being swallowed) flush the store immediately
after appending the new record: their traces end with the append followed
directly by a flush.  `NetCDF4Reporter.report` never issues a flush — no
successful call's trace contains one (and a raising call touches the store
not at all) — so the at-most-one-record-lost guarantee does not extend to
it. -/
theorem C3_append_then_flush_amended (st : Bool)
    (crds vels frcs protocolWork alchemicalLambda uses_pbc : Bool)
    (natoms : Nat) (out : Option Nat) :
    (∃ pre, (hdf5Report true st).1 = pre ++ [Ev.append, Ev.flush]) ∧
    (∃ pre, (sdReport true st).1 = pre ++ [Ev.append, Ev.flush]) ∧
    ∀ tr, ncReport crds vels frcs protocolWork alchemicalLambda uses_pbc
      natoms out = Except.ok tr → Ev.flush ∉ tr.1 := by
  refine ⟨?_, ?_, fun tr h => ncReport_no_flush crds vels frcs protocolWork
    alchemicalLambda uses_pbc natoms out tr h⟩
  · cases st
    · exact ⟨[Ev.setup], rfl⟩
    · exact ⟨[], rfl⟩
  · cases st
    · exact ⟨[Ev.writeHeader, Ev.flush], rfl⟩
    · exact ⟨[], rfl⟩

/-- Witness for the amended C3 at fresh reporters (first call), the NetCDF
one configured with coordinates only. -/
theorem C3_append_then_flush_amended_witness :
    (∃ pre, (hdf5Report true false).1 = pre ++ [Ev.append, Ev.flush]) ∧
    (∃ pre, (sdReport true false).1 = pre ++ [Ev.append, Ev.flush]) ∧
    ∀ tr, ncReport true false false false false false 5 none
      = Except.ok tr → Ev.flush ∉ tr.1 :=
  C3_append_then_flush_amended false true false false false false false 5
    none

end BluesReporters

namespace BluesReporters

theorem hdf5Report_initialized (hasFlush : Bool) :
    (hdf5Report hasFlush true).1.count Ev.setup = 0 ∧
    (hdf5Report hasFlush true).2 = true := by
  cases hasFlush <;> simp [hdf5Report]

theorem hdf5Run_initialized (hasFlush : Bool) (n : Nat) :
    (hdf5Run hasFlush n true).count Ev.setup = 0 := by
  induction n with
  | zero => rfl
  | succ m ih =>
      simp only [hdf5Run, List.count_append,
        (hdf5Report_initialized hasFlush).2, ih,
        (hdf5Report_initialized hasFlush).1]

theorem sdReport_initialized (outHasFlush : Bool) :
    (sdReport outHasFlush true).1.count Ev.writeHeader = 0 ∧
    (sdReport outHasFlush true).2 = true := by
  cases outHasFlush <;> simp [sdReport]

theorem sdRun_initialized (outHasFlush : Bool) (n : Nat) :
    (sdRun outHasFlush n true).count Ev.writeHeader = 0 := by
  induction n with
  | zero => rfl
  | succ m ih =>
      simp only [sdRun, List.count_append,
        (sdReport_initialized outHasFlush).2, ih,
        (sdReport_initialized outHasFlush).1]

theorem ncReport_initialized
    (crds vels frcs protocolWork alchemicalLambda uses_pbc : Bool)
    (natoms a : Nat) :
    ∃ evs, ncReport crds vels frcs protocolWork alchemicalLambda uses_pbc
        natoms (some a) = Except.ok (evs, some a) ∧
      evs.count Ev.setup = 0 := by
  refine ⟨_, rfl, ?_⟩
  have hz : ∀ b : Bool,
      (if b then [Ev.append] else []).count Ev.setup = 0 := by
    intro b
    cases b <;> simp
  simp [List.count_append, hz]

theorem ncRun_initialized
    (crds vels frcs protocolWork alchemicalLambda uses_pbc : Bool)
    (natoms a : Nat) (n : Nat) :
    (ncRun crds vels frcs protocolWork alchemicalLambda uses_pbc natoms n
      (some a)).count Ev.setup = 0 := by
  induction n with
  | zero => rfl
  | succ m ih =>
      obtain ⟨evs, heq, hcnt⟩ := ncReport_initialized crds vels frcs
        protocolWork alchemicalLambda uses_pbc natoms a
      simp only [ncRun]
      rw [heq]
      simp [List.count_append, hcnt, ih]

theorem hdf5Report_fresh_count (hasFlush : Bool) :
    (hdf5Report hasFlush false).1.count Ev.setup = 1 := by
  cases hasFlush <;> simp [hdf5Report]

theorem sdReport_fresh_count (outHasFlush : Bool) :
    (sdReport outHasFlush false).1.count Ev.writeHeader = 1 := by
  cases outHasFlush <;> simp [sdReport]

theorem ncAtom_assigned (crds vels frcs : Bool) (natoms : Nat)
    (h : crds = true ∨ vels = true ∨ frcs = true) :
    ncAtom crds vels frcs natoms = some natoms := by
  cases crds <;> cases vels <;> cases frcs <;> simp_all [ncAtom]

/-- With at least one of `crds`/`vels`/`frcs` set, the first
`NetCDF4Reporter.report` call allocates the store (one setup event) and
sets `_out`. -/
theorem ncReport_fresh
    (crds vels frcs protocolWork alchemicalLambda uses_pbc : Bool)
    (natoms : Nat) (h : crds = true ∨ vels = true ∨ frcs = true) :
    ∃ evs, ncReport crds vels frcs protocolWork alchemicalLambda uses_pbc
        natoms none = Except.ok (Ev.setup :: evs, some natoms) ∧
      evs.count Ev.setup = 0 := by
  have hat := ncAtom_assigned crds vels frcs natoms h
  refine ⟨(if uses_pbc then [Ev.append] else []) ++
      (if crds then [Ev.append] else []) ++
      (if vels then [Ev.append] else []) ++
      (if frcs then [Ev.append] else []) ++
      (if protocolWork then [Ev.append] else []) ++
      (if alchemicalLambda then [Ev.append] else []) ++
      [Ev.append], ?_, ?_⟩
  · simp only [ncReport]
    rw [hat]
  · have hz : ∀ b : Bool,
        (if b then [Ev.append] else []).count Ev.setup = 0 := by
      intro b
      cases b <;> simp
    simp [List.count_append, hz]

/-- Counterexample to **C9** as stated: a `NetCDF4Reporter` constructed
with `crds=vels=frcs=False` (reachable via
`NetCDF4Reporter(file, crds=False)`) never completes its first-call
initialization — the `atom` local is assigned in no branch, so the
`NetCDF4Traj.open_new` line raises `UnboundLocalError` and `_out` is
never set — contradicting a claim quantified over every reporter
configuration. -/
theorem C9_netcdf_no_flags_counterexample :
    (∀ tr, ncReport false false false false false false 5 none
      ≠ Except.ok tr) ∧
    ncReport false false false false false false 5 none
      = Except.error
          "UnboundLocalError: local variable atom referenced before assignment" := by
  refine ⟨?_, rfl⟩
  intro tr h
  simp [ncReport, ncAtom] at h

/-- **C9 (amended).** For every reporter and every sequence of calls to
`report` on the same instance — the NetCDF reporter being configured to
write at least one of coordinates, velocities or forces, since otherwise
its first call raises `UnboundLocalError` before `_out` is ever set — the
one-time resource initialization runs during the first call only: the
first call from the fresh state sets the guarding flag (`_is_intialized` /
`_hasInitialized` / `_out` no longer `None`), and the trace of `n + 1`
successive calls from the fresh state contains the initialization event
exactly once. -/
theorem C9_initialize_once
    (hasFlush outHasFlush : Bool)
    (crds vels frcs protocolWork alchemicalLambda uses_pbc : Bool)
    (natoms n : Nat) (h : crds = true ∨ vels = true ∨ frcs = true) :
    (hdf5Report hasFlush false).2 = true ∧
    (sdReport outHasFlush false).2 = true ∧
    (∃ evs, ncReport crds vels frcs protocolWork alchemicalLambda uses_pbc
        natoms none = Except.ok (Ev.setup :: evs, some natoms)) ∧
    (hdf5Run hasFlush (n + 1) false).count Ev.setup = 1 ∧
    (sdRun outHasFlush (n + 1) false).count Ev.writeHeader = 1 ∧
    (ncRun crds vels frcs protocolWork alchemicalLambda uses_pbc natoms
      (n + 1) none).count Ev.setup = 1 := by
  obtain ⟨evs, heq, hcnt⟩ := ncReport_fresh crds vels frcs protocolWork
    alchemicalLambda uses_pbc natoms h
  refine ⟨rfl, rfl, ⟨evs, heq⟩, ?_, ?_, ?_⟩
  · have h2 : (hdf5Report hasFlush false).2 = true := rfl
    simp only [hdf5Run, List.count_append, h2,
      hdf5Report_fresh_count hasFlush, hdf5Run_initialized hasFlush n]
  · have h2 : (sdReport outHasFlush false).2 = true := rfl
    simp only [sdRun, List.count_append, h2,
      sdReport_fresh_count outHasFlush, sdRun_initialized outHasFlush n]
  · simp only [ncRun]
    rw [heq]
    simp [List.count_append, hcnt,
      ncRun_initialized crds vels frcs protocolWork alchemicalLambda
        uses_pbc natoms natoms n]

/-- Witness for the amended C9 at concrete flags (coordinates written) and
two calls. -/
theorem C9_initialize_once_witness :
    (hdf5Report true false).2 = true ∧
    (sdReport true false).2 = true ∧
    (∃ evs, ncReport true false false false false false 5 none
        = Except.ok (Ev.setup :: evs, some 5)) ∧
    (hdf5Run true (1 + 1) false).count Ev.setup = 1 ∧
    (sdRun true (1 + 1) false).count Ev.writeHeader = 1 ∧
    (ncRun true false false false false false 5 (1 + 1) none).count
      Ev.setup = 1 :=
  C9_initialize_once true true true false false false false false 5 1
    (Or.inl rfl)

end BluesReporters

namespace BluesReporters

/-! ### `addLoggingLevel`

The relevant global state is the set of attributes of the `logging`
module (each one either a level number or a convenience method), the
method names of the class returned by `logging.getLoggerClass()`, and the
level-name registry maintained by `logging.addLevelName`.  `setattr`
rebinds, modelled by consing the new binding (`find?` returns the newest
one).  The source only warns on pre-existing names — the `AttributeError`
promised by its docstring is never raised — and then unconditionally
registers the level and both methods, so the model is a total function
returning the emitted warnings and the new state. -/

inductive AttrVal
  | levelNum (n : Int)
  | method
deriving DecidableEq

structure LoggingState where
  attrs : List (String × AttrVal)
  loggerClassAttrs : List String
  levelNames : List (Int × String)

/-- `hasattr(logging, name)` over the modelled attribute bindings. -/
def hasattrMod (attrs : List (String × AttrVal)) (name : String) : Bool :=
  (attrs.find? (fun p => p.1 == name)).isSome

/-- `if not methodName: methodName = levelName.lower()` — both `None` and
the empty string are falsy. -/
def resolveMethodName (levelName : String) (methodName : Option String) :
    String :=
  match methodName with
  | none => levelName.toLower
  | some s => if s = "" then levelName.toLower else s

/-- `addLoggingLevel(levelName, levelNum, methodName)`: warns (never
raises) for each name already present, then registers the level name and
sets the level and method attributes.  Returns the warning messages and
the new state; the `setattr` calls happen in source order, so a later
binding shadows an earlier one. -/
def addLoggingLevel (levelName : String) (levelNum : Int)
    (methodName : Option String) (st : LoggingState) :
    List String × LoggingState :=
  let m := resolveMethodName levelName methodName
  let warns :=
    (if hasattrMod st.attrs levelName then
      [levelName ++ " already defined in logging module"] else []) ++
    (if hasattrMod st.attrs m then
      [m ++ " already defined in logging module"] else []) ++
    (if m ∈ st.loggerClassAttrs then
      [m ++ " already defined in logger class"] else [])
  (warns,
    { levelNames := (levelNum, levelName) :: st.levelNames
      attrs := (m, AttrVal.method)
        :: (levelName, AttrVal.levelNum levelNum) :: st.attrs
      loggerClassAttrs := m :: st.loggerClassAttrs })

/-- **C8.** `addLoggingLevel` never raises when the level name, the method
name, or the logger-class method already exists: in each such case it
emits a warning (the warning list is non-empty) and still proceeds to
register the level name and set the level and method attributes on the
module and the logger class (it is a total function into
warnings × state, never an error, contrary to its docstring's
`AttributeError` promise). -/
theorem C8_addLoggingLevel_warns_and_registers (levelName : String)
    (levelNum : Int) (methodName : Option String) (st : LoggingState)
    (h : hasattrMod st.attrs levelName = true ∨
      hasattrMod st.attrs (resolveMethodName levelName methodName) = true ∨
      resolveMethodName levelName methodName ∈ st.loggerClassAttrs) :
    (addLoggingLevel levelName levelNum methodName st).1 ≠ [] ∧
    hasattrMod (addLoggingLevel levelName levelNum methodName st).2.attrs
      levelName = true ∧
    hasattrMod (addLoggingLevel levelName levelNum methodName st).2.attrs
      (resolveMethodName levelName methodName) = true ∧
    resolveMethodName levelName methodName
      ∈ (addLoggingLevel levelName levelNum methodName st).2.loggerClassAttrs ∧
    (levelNum, levelName)
      ∈ (addLoggingLevel levelName levelNum methodName st).2.levelNames := by
  refine ⟨?_, ?_, ?_, ?_, ?_⟩
  · simp only [addLoggingLevel]
    rcases h with h | h | h
    · rw [h]
      simp
    · rw [h]
      cases hl : hasattrMod st.attrs levelName <;> simp
    · rw [if_pos h]
      cases hl : hasattrMod st.attrs levelName <;>
        cases hm : hasattrMod st.attrs
          (resolveMethodName levelName methodName) <;> simp
  · simp only [addLoggingLevel, hasattrMod, List.find?]
    cases hb : (resolveMethodName levelName methodName == levelName) <;>
      simp [hb, beq_self_eq_true]
  · simp only [addLoggingLevel, hasattrMod, List.find?, beq_self_eq_true]
    simp
  · simp [addLoggingLevel]
  · simp [addLoggingLevel]

/-- Witness for C8: with `"TRACE"` already an attribute of the logging
module, re-adding it warns and still registers the level and methods. -/
theorem C8_addLoggingLevel_warns_and_registers_witness :
    ((addLoggingLevel "TRACE" 5 (some "trc")
        ⟨[("TRACE", AttrVal.levelNum 5)], [], []⟩).1 ≠ [] ∧
    hasattrMod (addLoggingLevel "TRACE" 5 (some "trc")
        ⟨[("TRACE", AttrVal.levelNum 5)], [], []⟩).2.attrs "TRACE" = true ∧
    hasattrMod (addLoggingLevel "TRACE" 5 (some "trc")
        ⟨[("TRACE", AttrVal.levelNum 5)], [], []⟩).2.attrs
      (resolveMethodName "TRACE" (some "trc")) = true ∧
    resolveMethodName "TRACE" (some "trc")
      ∈ (addLoggingLevel "TRACE" 5 (some "trc")
          ⟨[("TRACE", AttrVal.levelNum 5)], [], []⟩).2.loggerClassAttrs ∧
    ((5 : Int), "TRACE")
      ∈ (addLoggingLevel "TRACE" 5 (some "trc")
          ⟨[("TRACE", AttrVal.levelNum 5)], [], []⟩).2.levelNames) :=
  C8_addLoggingLevel_warns_and_registers "TRACE" 5 (some "trc")
    ⟨[("TRACE", AttrVal.levelNum 5)], [], []⟩ (Or.inl (by decide))

end BluesReporters
